import Mathlib

/-!
Verification development for the bittensor core-server process supervisor
(`src/bittensor/_neuron/text/core_server/__init__.py`) and the gpt2-wiki
weight-synchronization training loop (`src/neurons/gpt2-wiki.py`).

The Python code is shallowly embedded: processes become explicit state
records, the supervision loop becomes a scan over a pool of worker states,
exceptions become `Except` values, and torch tensors become lists of
rationals.
-/

deriving instance DecidableEq for Except

/-- A captured child fault: the pair `(error, traceback)` sent over the pipe
by `Process.run` (`__init__.py` lines 50-52), with both components modelled
as strings. -/
abbrev Fault := String × String

/-- Observable outcome of `Process.run` (`__init__.py` lines 46-53): the list
of messages sent on the child end of the pipe, and the process exit code.
`run` wraps the target in `try`: on normal completion it sends `None`; on an
exception it sends `(e, traceback.format_exc())` and then returns normally
(the re-raise on line 53 is commented out), so the process exits 0 in both
branches. -/
structure RunOutcome where
  sent : List (Option Fault)
  exitcode : Int
  deriving DecidableEq

/-- Embedding of `Process.run`. The body is the wrapped target: `.ok ()` if
it completes, `.error (e, tb)` if it raises with traceback `tb`. -/
def processRun (body : Except Fault Unit) : RunOutcome :=
  match body with
  | .ok _ => { sent := [none], exitcode := 0 }
  | .error f => { sent := [some f], exitcode := 0 }

/-- Snapshot of one supervised child as the parent's poll loop sees it:
`is_alive()`, `exitcode` (`none` models Python `None`, i.e. never started),
and the drained content of the fault pipe (`none` if the pipe held nothing
or held the clean-completion `None` message). -/
structure Worker where
  alive : Bool
  exitcode : Option Int
  fault : Option Fault
  deriving DecidableEq

/-- The worker state after its `run` body has finished and the process has
exited: dead, exit code from `processRun` (always 0), fault slot holding the
single message sent on the pipe. -/
def workerAfterRun (body : Except Fault Unit) : Worker :=
  { alive := false
  , exitcode := some (processRun body).exitcode
  , fault := ((processRun body).sent.headD none) }

/-- What one iteration of the supervision loop (`__init__.py` lines 182-194)
does with one worker: nothing (`keep`), reap it (`join` + delete), or
terminate everyone and raise. -/
inductive PollAction where
  | keep
  | reap
  | raiseNotStarted
  | raiseFault (trace : String)
  deriving DecidableEq

/-- The branch structure of `neuron.run`'s poll of a single worker, in source
order: skip live workers; `exitcode is None` raises "Not started and not
exited!"; a populated fault slot raises `ChildProcessError(trace)`;
`exitcode == 0` reaps; otherwise no branch matches. -/
def pollWorker (w : Worker) : PollAction :=
  if w.alive then .keep
  else
    match w.exitcode, w.fault with
    | none, _ => .raiseNotStarted
    | some _, some f => .raiseFault f.2
    | some e, none => if e = 0 then .reap else .keep

/-- The supervisor-level error raised out of `neuron.run`. -/
inductive SupError where
  | notStarted
  | childProcessError (trace : String)
  deriving DecidableEq

/-- Result of one pass of the inner `for` loop over the process table:
either an error was raised after terminating the listed process indices
(everything still in the table at that moment), or the pass completed with
the remaining table. -/
inductive ScanResult where
  | raised (terminated : List Nat) (err : SupError)
  | running (remaining : List (Nat × Worker))
  deriving DecidableEq

/-- One pass of `for n in list(processes)` (`__init__.py` lines 179-194).
`kept` is the prefix of the table already scanned and retained; reaped
workers are deleted; on a raising branch every entry still in the table
(kept prefix, current worker, unscanned rest) is terminated. -/
def scanFrom : List (Nat × Worker) → List (Nat × Worker) → ScanResult
  | kept, [] => .running kept
  | kept, a :: rest =>
    match pollWorker a.2 with
    | .keep => scanFrom (kept ++ [a]) rest
    | .reap => scanFrom kept rest
    | .raiseNotStarted =>
        .raised ((kept ++ a :: rest).map Prod.fst) .notStarted
    | .raiseFault tr =>
        .raised ((kept ++ a :: rest).map Prod.fst) (.childProcessError tr)

/-- Outcome of the outer `while len(processes)>0` loop. -/
inductive SuperviseResult where
  | raised (terminated : List Nat) (err : SupError)
  | allExited
  deriving DecidableEq

/-- The outer supervision loop, fuelled: each unit of fuel is one pass over
the table. `none` means the loop was still running when the fuel ran out. -/
def superviseLoop : Nat → List (Nat × Worker) → Option SuperviseResult
  | 0, _ => none
  | _ + 1, [] => some .allExited
  | fuel + 1, pool =>
    match scanFrom [] pool with
    | .raised t e => some (.raised t e)
    | .running rest => superviseLoop fuel rest

example : pollWorker ⟨true, none, none⟩ = .keep := by decide
example : pollWorker ⟨false, some 0, none⟩ = .reap := by decide
example : pollWorker ⟨false, some 1, none⟩ = .keep := by decide
example : pollWorker ⟨false, some 0, some ("e", "t")⟩ = .raiseFault "t" := by decide
example : pollWorker ⟨false, none, none⟩ = .raiseNotStarted := by decide

/-! ## Identity fan-out (`neuron.create_shared_subconfigs`, lines 200-215) -/

/-- Python exception kinds that `create_shared_subconfigs` can raise. -/
inductive PyError where
  | valueError
  | attributeError
  deriving DecidableEq

/-- Split of a character list on a separator, with Python `str.split`
semantics for a one-character separator: an empty input yields `[[]]`, a
trailing separator yields a trailing empty piece. -/
def splitChar (sep : Char) : List Char → List (List Char)
  | [] => [[]]
  | c :: cs =>
    let r := splitChar sep cs
    if c = sep then [] :: r
    else
      match r with
      | [] => [[c]]
      | w :: ws => (c :: w) :: ws

/-- Python `s.split(sep)` for a one-character separator. -/
def pySplit (s : String) (sep : Char) : List String :=
  (splitChar sep s.data).map (fun cs => String.mk cs)

def parseDigitsAux : List Char → Nat → Option Nat
  | [], acc => some acc
  | c :: cs, acc =>
    if c.isDigit then parseDigitsAux cs (10 * acc + (c.toNat - 48)) else none

/-- Digits-only numeral parse; `none` on the empty list or a non-digit. -/
def parseDigits : List Char → Option Nat
  | [] => none
  | cs => parseDigitsAux cs 0

/-- Python `int(s)` restricted to optionally-signed decimal numerals
(whitespace stripping and underscores are not modelled; the port strings of
interest are plain numerals). `none` models a raised `ValueError`. -/
def pyInt (s : String) : Option Int :=
  match s.data with
  | '-' :: cs => (parseDigits cs).map (fun n => -(n : Int))
  | cs => (parseDigits cs).map (fun n => (n : Int))

/-- One identity substitution: `(coldkey, hotkey, port)`. -/
abbrev IdentSub := String × String × Int

/-- Per-entry work of the fan-out loop body, in evaluation order: `zip`
pulls the port through `map(int, ...)` first (a bad port raises
`ValueError`), then `coldkey,hotkey = key.split(":")` raises `ValueError`
unless the split has exactly two pieces. -/
def entrySub (k p : String) : Except PyError IdentSub :=
  match pyInt p with
  | none => .error .valueError
  | some port =>
    match pySplit k ':' with
    | [c, h] => .ok (c, h, port)
    | _ => .error .valueError

/-- A well-formed zipped entry: the port parses and the key has exactly one
`:` separator. -/
def entryOk (k p : String) : Bool :=
  (pyInt p).isSome && (pySplit k ':').length == 2

/-- The `for key,port in zip(keylist,portlist)` traversal: stops at the
shorter list (Python `zip` truncates silently), propagating the first
per-entry exception. -/
def zipParse : List String → List String → Except PyError (List IdentSub)
  | [], _ => .ok []
  | _ :: _, [] => .ok []
  | k :: ks, p :: ps =>
    match entrySub k p with
    | .error e => .error e
    | .ok t =>
      match zipParse ks ps with
      | .error e => .error e
      | .ok rest => .ok (t :: rest)

/-- The configuration fields read or written by the supervisor core:
`wallet.name`, `wallet.hotkey`, `axon.port`, `wallet.shared_keys`,
`axon.shared_ports`.  The rest of the bittensor config tree is untouched by
`create_shared_subconfigs` and is not modelled. -/
structure ConfigData where
  walletName : String
  walletHotkey : String
  axonPort : Int
  sharedKeys : Option String
  sharedPorts : Option String
  deriving DecidableEq

instance : Inhabited ConfigData := ⟨⟨"", "", 0, none, none⟩⟩

/-- The three attribute writes performed on a freshly deep-copied subconfig
(`__init__.py` lines 209-211). -/
def applySub (t : IdentSub) (c : ConfigData) : ConfigData :=
  { c with walletName := t.1, walletHotkey := t.2.1, axonPort := t.2.2 }

/-- Value-level embedding of `neuron.create_shared_subconfigs`: `None`
shared keys yields the single original config; a `None` ports string next to
non-`None` keys raises `AttributeError` (`None.split`); otherwise the zip
traversal produces one substituted copy per zipped entry. -/
def create_shared_subconfigs (c : ConfigData) : Except PyError (List ConfigData) :=
  match c.sharedKeys with
  | none => .ok [c]
  | some sk =>
    match c.sharedPorts with
    | none => .error .attributeError
    | some sp =>
      match zipParse (pySplit sk ',') (pySplit sp ',') with
      | .error e => .error e
      | .ok ts => .ok (ts.map (fun t => applySub t c))

/-- `true` iff the computation raised. -/
def exceptErr {α : Type} (r : Except PyError α) : Bool :=
  match r with
  | .error _ => true
  | .ok _ => false

example : pySplit "A:a,B:b" ',' = ["A:a", "B:b"] := by decide
example : pySplit "" ',' = [""] := by decide
example : pyInt "9000" = some 9000 := by decide
example : pyInt "" = none := by decide
example : zipParse ["A:a", "B:b"] ["9000"] = .ok [("A", "a", 9000)] := by decide
example : zipParse ["A:a", "Bb"] ["9000", "9001"] = .error .valueError := by decide

/-! ## Heap model for the deep-copy property (claim about mutation
independence).  Configs live at addresses in a store; `copy.deepcopy`
allocates a fresh address holding a copy of the pointed-to data, so writes
through one address can never be observed through another. -/

abbrev Addr := Nat
abbrev Store := List ConfigData

/-- Dereference an address. -/
def readAddr (s : Store) (a : Addr) : Option ConfigData := s.get? a

/-- `copy.deepcopy`: allocate a fresh address holding a copy of the data at
`a`. -/
def deepcopyAt (s : Store) (a : Addr) : Addr × Store :=
  (s.length, s ++ [(s.get? a).getD default])

/-- In-place attribute mutation of the object at address `a`. -/
def setAt (s : Store) (a : Addr) (f : ConfigData → ConfigData) : Store :=
  s.set a (f ((s.get? a).getD default))

/-- Heap-level fan-out loop body: for each `(coldkey, hotkey, port)` entry,
deep-copy the original config and mutate the copy's three fields in source
order. -/
def fanoutHeap (a0 : Addr) : List IdentSub → Store → List Addr × Store
  | [], s => ([], s)
  | t :: ts, s =>
    let p := deepcopyAt s a0
    let s2 := setAt p.2 p.1 (fun c => { c with walletName := t.1 })
    let s3 := setAt s2 p.1 (fun c => { c with walletHotkey := t.2.1 })
    let s4 := setAt s3 p.1 (fun c => { c with axonPort := t.2.2 })
    let r := fanoutHeap a0 ts s4
    (p.1 :: r.1, r.2)

/-- Heap-level embedding of `create_shared_subconfigs`: parsing mirrors the
value-level embedding; on success the fan-out allocates one fresh config per
entry.  (On the error path the partially built copies are unobservable, as
in Python where the exception discards them, so parsing is modelled before
allocation.) -/
def createSharedSubconfigsHeap (a0 : Addr) (s : Store) :
    Except PyError (List Addr × Store) :=
  match readAddr s a0 with
  | none => .error .attributeError
  | some c =>
    match c.sharedKeys with
    | none => .ok ([a0], s)
    | some sk =>
      match c.sharedPorts with
      | none => .error .attributeError
      | some sp =>
        match zipParse (pySplit sk ',') (pySplit sp ',') with
        | .error e => .error e
        | .ok ts => .ok (fanoutHeap a0 ts s)

/-! ## Weight-synchronization training loop (`src/neurons/gpt2-wiki.py`,
`train`, lines 81-151).  Torch tensors become lists of rationals; the model
forward pass, the metagraph and the axon become per-iteration environment
records whose calls can succeed or raise. -/

/-- `F.normalize(_, p=1)` clamps the norm from below at `eps = 1e-12`. -/
def eps : ℚ := 1 / 1000000000000

/-- L1 norm of a vector. -/
def l1norm (v : List ℚ) : ℚ := (v.map (fun x => |x|)).sum

/-- `F.normalize(v, p = 1, dim = 0)`: divide by `max(‖v‖₁, eps)`. -/
def normalizeL1 (v : List ℚ) : List ℚ :=
  v.map (fun x => x / max (l1norm v) eps)

/-- Line 127: `row_weights = (1 - 0.03) * row_weights + 0.03 * batch_weights`.
The smoothing constant 0.03 is exactly `3/100`. -/
def preSmooth (row batch : List ℚ) : List ℚ :=
  List.zipWith (fun r b => (1 - 3 / 100) * r + (3 / 100) * b) row batch

/-- Lines 127-128: moving-average update followed by the unconditional
per-step L1 renormalization. -/
def smoothUpdate (row batch : List ℚ) : List ℚ :=
  normalizeL1 (preSmooth row batch)

/-- `W[0, :]`: the local row of the shared matrix. -/
def row0 (W : List (List ℚ)) : List ℚ := W.headD []

/-- `W[:, 0]`: the priority column of the shared matrix. -/
def col0 (W : List (List ℚ)) : List ℚ := W.map (fun r => r.headD 0)

/-- Externally visible calls made by the loop, in the order they were
issued.  `emit` records the 1-indexed number of the local step being
processed when the publish was attempted, the published row, and the
`wait_for_inclusion` flag. -/
inductive Event where
  | emit (stepNo : Nat) (row : List ℚ) (waitForInclusion : Bool)
  | syncCall
  | setPriority (weights : List ℚ)
  deriving DecidableEq

/-- Worker-local mutable state of `train`: the smoothed row, the last pulled
matrix, the step counters, and the trace of external calls. -/
structure TrainState where
  rowWeights : List ℚ
  matrixW : List (List ℚ)
  localStep : Nat
  globalStep : Nat
  events : List Event
  deriving DecidableEq

/-- Environment for one iteration of the `while` loop: outcome of the
batch-processing phase (lines 94-128 — `nextbatch`, forward, backward,
logging; on success it supplies `torch.mean(output.weights, axis=0)`), the
outcomes of `metagraph.emit` and `metagraph.sync`, and the matrix the chain
holds after a successful sync. -/
structure StepEnv where
  batchResult : Except String (List ℚ)
  emitResult : Except String Unit
  syncResult : Except String Unit
  syncedW : List (List ℚ)
  deriving DecidableEq

/-- Lines 141-142: `local_step += 1; global_step += 1` (reached only when
the whole body succeeded). -/
def bumpSteps (st : TrainState) : TrainState :=
  { st with localStep := st.localStep + 1, globalStep := st.globalStep + 1 }

/-- The body of the `try:` block (lines 93-143).  Returns the state reached
together with the raised exception, if any: in Python an exception preserves
the assignments already performed, so a fault after the row update keeps the
updated row.  The publish/pull block (lines 130-139) runs when
`(global_step + 1) % sync_interval == 0`: emit with
`wait_for_inclusion=True`, then sync, then reset the row from the fresh
`W[0,:]`, then derive priorities from the fresh `W[:,0]`. -/
def stepBody (k : Nat) (env : StepEnv) (st : TrainState) :
    TrainState × Option String :=
  match env.batchResult with
  | .error e => (st, some e)
  | .ok batch =>
    let st1 := { st with rowWeights := smoothUpdate st.rowWeights batch }
    if (st.globalStep + 1) % k = 0 then
      let st2 := { st1 with
        events := st1.events ++ [Event.emit (st.globalStep + 1) st1.rowWeights true] }
      match env.emitResult with
      | .error e => (st2, some e)
      | .ok _ =>
        let st3 := { st2 with events := st2.events ++ [Event.syncCall] }
        match env.syncResult with
        | .error e => (st3, some e)
        | .ok _ =>
          let st4 := { st3 with
            matrixW := env.syncedW, rowWeights := row0 env.syncedW }
          let st5 := { st4 with
            events := st4.events ++ [Event.setPriority (col0 env.syncedW)] }
          (bumpSteps st5, none)
    else (bumpSteps st1, none)

/-- Line 88: `local_epochs = 10`. -/
def localEpochs : Nat := 10

/-- The `while local_step < local_epochs` loop (lines 92-149), fuelled by
the number of iterations attempted.  The `except` clause catches every
exception raised by the body, logs it, and continues — the error component
of `stepBody` is deliberately dropped here, exactly like lines 146-149. -/
def trainLoop (k : Nat) (envs : Nat → StepEnv) : Nat → Nat → TrainState → TrainState
  | 0, _, st => st
  | fuel + 1, iter, st =>
    if st.localStep < localEpochs then
      trainLoop k envs fuel (iter + 1) (stepBody k (envs iter) st).1
    else st

/-- Environment for one `train(epoch, global_step)` call: the outcome of the
epoch-entry `session.metagraph.sync()` (line 84, outside the `try`), the
matrix it pulls, and the per-iteration step environments. -/
structure EpochEnv where
  entrySyncResult : Except String Unit
  entryW : List (List ℚ)
  steps : Nat → StepEnv

/-- The error, if any, carried by an `Except` outcome. -/
def errPart (r : Except String Unit) : Option String :=
  match r with
  | .error e => some e
  | .ok _ => none

/-- One call of `train` (lines 81-151): entry sync (uncaught — a failure
here is the worker fault that escapes to the supervisor), row reset from
`W[0,:]`, `local_step = 0`, then the guarded step loop. -/
def trainEpoch (k : Nat) (fuel : Nat) (env : EpochEnv) (st : TrainState) :
    TrainState × Option String :=
  let st1 := { st with events := st.events ++ [Event.syncCall] }
  match env.entrySyncResult with
  | .error e => (st1, some e)
  | .ok _ =>
    let st2 := { st1 with
      matrixW := env.entryW, rowWeights := row0 env.entryW, localStep := 0 }
    (trainLoop k env.steps fuel 0 st2, none)

/-- An all-succeeding step environment over a single-peer chain whose
weights are all zero. -/
def okStepEnv : StepEnv :=
  { batchResult := .ok [0], emitResult := .ok (), syncResult := .ok ()
  , syncedW := [[0]] }

/-- Step environment whose `metagraph.emit` call raises. -/
def failEmitEnv : StepEnv := { okStepEnv with emitResult := .error "boom" }

/-- Iteration environments where only the second iteration's publish step
fails. -/
def cexSteps (i : Nat) : StepEnv := if i = 1 then failEmitEnv else okStepEnv

/-- Epoch environment for the publish-failure scenario. -/
def cexEpochEnv : EpochEnv :=
  { entrySyncResult := .ok (), entryW := [[0]], steps := cexSteps }

/-- Initial worker state, before the first epoch entry. -/
def st0 : TrainState :=
  { rowWeights := [], matrixW := [], localStep := 0, globalStep := 0, events := [] }

/-- All-succeeding epoch environment. -/
def okEpochEnv : EpochEnv :=
  { entrySyncResult := .ok (), entryW := [[0]], steps := fun _ => okStepEnv }

/-- The outer unbounded epoch loop (lines 156-160) restricted to its calls
into `train`, instantiated with `sync_interval = 100` (the observed default)
and the all-succeeding environment: each epoch runs 10 local steps. -/
def runEpochs : Nat → TrainState → TrainState
  | 0, st => st
  | n + 1, st => runEpochs n (trainEpoch 100 localEpochs okEpochEnv st).1

/-- The 1-indexed local-step numbers at which a publish was issued. -/
def emittedSteps (st : TrainState) : List Nat :=
  st.events.filterMap (fun e =>
    match e with
    | Event.emit n _ _ => some n
    | _ => none)

unseal Rat.mul Rat.add Rat.sub Rat.inv Rat.ofScientific in
example : smoothUpdate [0] [0] = [0] := by decide

unseal Rat.mul Rat.add Rat.sub Rat.inv Rat.ofScientific in
example : smoothUpdate [1, 0] [0, 1] = [97 / 100, 3 / 100] := by decide

/-! ## Supervisor lemmas -/

theorem pollWorker_alive (w : Worker) (h : w.alive = true) :
    pollWorker w = .keep := by
  simp [pollWorker, h]

theorem scanFrom_keep (pre : List (Nat × Worker)) (rest kept : List (Nat × Worker))
    (h : ∀ x ∈ pre, pollWorker x.2 = .keep) :
    scanFrom kept (pre ++ rest) = scanFrom (kept ++ pre) rest := by
  induction pre generalizing kept with
  | nil => simp
  | cons a as ih =>
    have ha : pollWorker a.2 = .keep := h a (List.mem_cons_self a as)
    simp only [List.cons_append, scanFrom, ha, List.append_eq]
    rw [ih (kept ++ [a]) (fun x hx => h x (List.mem_cons_of_mem a hx))]
    rw [List.append_cons kept a as]

theorem scanFrom_all_keep (l kept : List (Nat × Worker))
    (h : ∀ x ∈ l, pollWorker x.2 = .keep) :
    scanFrom kept l = .running (kept ++ l) := by
  have h2 := scanFrom_keep l [] kept h
  simpa using h2

theorem superviseLoop_stuck (pool : List (Nat × Worker)) (hne : pool ≠ [])
    (h : ∀ x ∈ pool, pollWorker x.2 = .keep) :
    ∀ fuel, superviseLoop fuel pool = none := by
  intro fuel
  induction fuel with
  | zero => rfl
  | succ n ih =>
    cases pool with
    | nil => exact absurd rfl hne
    | cons a as =>
      have hs := scanFrom_all_keep (a :: as) [] h
      simp only [List.nil_append] at hs
      simp only [superviseLoop, hs]
      exact ih

/-! ## Claims about the supervision loop -/

/-- Claim C1: in a pool of N ≥ 2 supervised workers, when the scan reaches a
dead worker whose fault slot holds an `(error, trace)` pair — and every
worker polled before it is still alive, so this is the first observed fault —
the loop terminates every process still in the table (all of them) and
raises a single `ChildProcessError` whose message is exactly that worker's
diagnostic trace, regardless of the faulting worker's position. -/
theorem fault_slot_triggers_group_termination
    (pre post : List (Nat × Worker)) (k : Nat) (ec : Int) (err tr : String)
    (hN : 2 ≤ (pre ++ (k, ⟨false, some ec, some (err, tr)⟩) :: post).length)
    (hpre : ∀ x ∈ pre, x.2.alive = true) :
    scanFrom [] (pre ++ (k, ⟨false, some ec, some (err, tr)⟩) :: post) =
      .raised ((pre ++ (k, ⟨false, some ec, some (err, tr)⟩) :: post).map Prod.fst)
        (.childProcessError tr) := by
  rw [scanFrom_keep pre _ [] (fun x hx => pollWorker_alive x.2 (hpre x hx))]
  simp [scanFrom, pollWorker]

/-- Witness for C1: three workers, the middle one dead with a populated
fault slot; everyone (indices 0, 1, 2) is terminated and the raised error
carries the faulting worker's trace. -/
theorem fault_slot_triggers_group_termination_witness :
    (2 ≤ ([((0 : Nat), (⟨true, none, none⟩ : Worker))] ++
        (1, (⟨false, some 1, some ("E", "T")⟩ : Worker)) ::
        [((2 : Nat), (⟨true, none, none⟩ : Worker))]).length ∧
      (∀ x ∈ [((0 : Nat), (⟨true, none, none⟩ : Worker))], x.2.alive = true)) ∧
    scanFrom [] ([((0 : Nat), (⟨true, none, none⟩ : Worker))] ++
        (1, (⟨false, some 1, some ("E", "T")⟩ : Worker)) ::
        [((2 : Nat), (⟨true, none, none⟩ : Worker))]) =
      .raised [0, 1, 2] (.childProcessError "T") :=
  ⟨⟨by decide, by decide⟩,
    fault_slot_triggers_group_termination
      [((0 : Nat), (⟨true, none, none⟩ : Worker))]
      [((2 : Nat), (⟨true, none, none⟩ : Worker))]
      1 1 "E" "T" (by decide) (by decide)⟩

/-- Claim C4 (amended): when the `run` body raises, `Process.run` sends the
`(error, trace)` pair on the pipe exactly once — but the process then exits
with status 0, not non-zero, because the re-raise after the send is
commented out (`__init__.py` line 53). -/
theorem faulting_run_sends_once_and_exits_zero (f : Fault) :
    (processRun (.error f)).sent = [some f] ∧
      (processRun (.error f)).exitcode = 0 :=
  ⟨rfl, rfl⟩

/-- Counterexample for C4 as stated: for a concrete faulting body, it is not
the case that the pair is sent once *and* the exit status is non-zero — the
exit status is 0. -/
theorem faulting_run_exit_status_cex :
    ¬ ((processRun (Except.error ("boom", "tb"))).sent =
          [some ("boom", "tb")] ∧
        (processRun (Except.error ("boom", "tb"))).exitcode ≠ 0) := by
  decide

/-- Claim C9: a worker that died with a non-zero exit status and an empty
fault slot (e.g. killed by a signal) matches none of the three branches of
the supervision loop — it polls to `keep` — and as long as its siblings stay
alive the loop never reaps it, never terminates anyone, never raises, and
runs forever (returns `none` for every amount of fuel). -/
theorem signal_killed_worker_polls_forever
    (pre post : List (Nat × Worker)) (k : Nat) (ec : Int) (hec : ec ≠ 0)
    (hpre : ∀ x ∈ pre, x.2.alive = true)
    (hpost : ∀ x ∈ post, x.2.alive = true) :
    pollWorker ⟨false, some ec, none⟩ = .keep ∧
      ∀ fuel,
        superviseLoop fuel (pre ++ (k, ⟨false, some ec, none⟩) :: post) = none := by
  have hk : pollWorker ⟨false, some ec, none⟩ = .keep := by
    simp [pollWorker, hec]
  refine ⟨hk, superviseLoop_stuck _ (by simp) ?_⟩
  intro x hx
  rcases List.mem_append.mp hx with hx1 | hx2
  · exact pollWorker_alive x.2 (hpre x hx1)
  · rcases List.mem_cons.mp hx2 with rfl | hx3
    · exact hk
    · exact pollWorker_alive x.2 (hpost x hx3)

/-- Witness for C9: a single worker, dead with exit code -9 and an empty
fault slot, is polled forever. -/
theorem signal_killed_worker_polls_forever_witness :
    ((-9 : Int) ≠ 0 ∧
      (∀ x ∈ ([] : List (Nat × Worker)), x.2.alive = true)) ∧
    (pollWorker ⟨false, some (-9), none⟩ = .keep ∧
      ∀ fuel,
        superviseLoop fuel ([] ++ ((0 : Nat), (⟨false, some (-9), none⟩ : Worker)) :: []) = none) :=
  ⟨⟨by decide, by decide⟩,
    signal_killed_worker_polls_forever [] [] 0 (-9) (by decide) (by decide) (by decide)⟩

/-- Claim C10: the fault-slot branch is checked before the `exitcode == 0`
branch, so a worker whose `run` body raised — which, per `processRun`,
exits with status 0 — still triggers whole-group termination and a raised
`ChildProcessError` with its trace instead of being reaped as successful. -/
theorem fault_checked_before_zero_exit
    (pre post : List (Nat × Worker)) (k : Nat) (err tr : String)
    (hpre : ∀ x ∈ pre, x.2.alive = true) :
    (workerAfterRun (.error (err, tr))).exitcode = some 0 ∧
    scanFrom [] (pre ++ (k, workerAfterRun (.error (err, tr))) :: post) =
      .raised
        ((pre ++ (k, workerAfterRun (.error (err, tr))) :: post).map Prod.fst)
        (.childProcessError tr) := by
  constructor
  · rfl
  · rw [scanFrom_keep pre _ [] (fun x hx => pollWorker_alive x.2 (hpre x hx))]
    simp [scanFrom, pollWorker, workerAfterRun, processRun]

/-- Witness for C10: two workers, the second's run body raised; despite its
exit status 0 the supervisor terminates both and raises with its trace. -/
theorem fault_checked_before_zero_exit_witness :
    (∀ x ∈ [((0 : Nat), (⟨true, none, none⟩ : Worker))], x.2.alive = true) ∧
    ((workerAfterRun (.error ("E2", "T2"))).exitcode = some 0 ∧
      scanFrom [] ([((0 : Nat), (⟨true, none, none⟩ : Worker))] ++
          (1, workerAfterRun (.error ("E2", "T2"))) :: []) =
        .raised [0, 1] (.childProcessError "T2")) :=
  ⟨by decide,
    fault_checked_before_zero_exit
      [((0 : Nat), (⟨true, none, none⟩ : Worker))] [] 1 "E2" "T2" (by decide)⟩

/-! ## Claims about identity fan-out -/

theorem entrySub_err_iff (k p : String) :
    exceptErr (entrySub k p) = ! entryOk k p := by
  unfold entrySub entryOk
  cases hp : pyInt p with
  | none => simp [exceptErr]
  | some v =>
    cases hs : pySplit k ':' with
    | nil => simp [exceptErr]
    | cons a l =>
      cases l with
      | nil => simp [exceptErr]
      | cons b l2 =>
        cases l2 with
        | nil => simp [exceptErr]
        | cons c l3 => simp [exceptErr]

theorem zipParse_err_iff (ks ps : List String) :
    exceptErr (zipParse ks ps) =
      ! (ks.zip ps).all (fun kp => entryOk kp.1 kp.2) := by
  induction ks generalizing ps with
  | nil => simp [zipParse, exceptErr]
  | cons k ks ih =>
    cases ps with
    | nil => simp [zipParse, exceptErr]
    | cons p ps =>
      cases he : entrySub k p with
      | error e =>
        have h1 : entryOk k p = false := by
          have h2 := entrySub_err_iff k p
          rw [he] at h2
          simpa [exceptErr] using h2.symm
        simp [zipParse, he, exceptErr, h1]
      | ok t =>
        have h1 : entryOk k p = true := by
          have h2 := entrySub_err_iff k p
          rw [he] at h2
          simpa [exceptErr] using h2.symm
        cases hr : zipParse ks ps with
        | error e =>
          have h3 := ih ps
          rw [hr] at h3
          simp [zipParse, he, hr, exceptErr, h1, ← h3]
        | ok rest =>
          have h3 := ih ps
          rw [hr] at h3
          simp [zipParse, he, hr, exceptErr, h1, ← h3]

theorem zipParse_ok_length (ks : List String) :
    ∀ (ps : List String) (l : List IdentSub),
      zipParse ks ps = .ok l → l.length = min ks.length ps.length := by
  induction ks with
  | nil =>
    intro ps l h
    simp [zipParse] at h
    simp [← h]
  | cons k ks ih =>
    intro ps l h
    cases ps with
    | nil =>
      simp [zipParse] at h
      simp [← h]
    | cons p ps =>
      rw [zipParse] at h
      cases he : entrySub k p with
      | error e => rw [he] at h; exact absurd h (by simp)
      | ok t =>
        rw [he] at h
        cases hr : zipParse ks ps with
        | error e2 => rw [hr] at h; exact absurd h (by simp)
        | ok rest =>
          rw [hr] at h
          have hl : l = t :: rest := by
            simpa using h.symm
          subst hl
          have h4 := ih ps rest hr
          simp [h4, Nat.succ_min_succ]

/-- Claim C2 counterexample input: two keys, one port. -/
def cexConfig : ConfigData :=
  { walletName := "default", walletHotkey := "default", axonPort := 8091
  , sharedKeys := some "A:a,B:b", sharedPorts := some "9000" }

/-- Counterexample for C2 as stated: with two well-formed keys and only one
port — comma lists of unequal lengths 2 and 1 — `create_shared_subconfigs`
does not fail: `zip` silently truncates to the shorter list. -/
theorem unequal_lengths_do_not_fail_cex :
    exceptErr (create_shared_subconfigs cexConfig) = false ∧
      (pySplit "A:a,B:b" ',').length = 2 ∧
      (pySplit "9000" ',').length = 1 := by
  decide

/-- Claim C2 (amended): identity fan-out raises an error iff some *zipped*
(key, port) pair is malformed — a key entry without exactly one `:`
separator, or an unparseable port — and on success it yields
`min(|keys|, |ports|)` configs: unequal list lengths alone never fail, the
longer list is silently truncated.  (The fan-out runs in `neuron.__init__`,
before `neuron.run` spawns any process, so when it raises nothing is ever
spawned.) -/
theorem fanout_fails_iff_bad_zipped_entry (c : ConfigData) (sk sp : String)
    (h1 : c.sharedKeys = some sk) (h2 : c.sharedPorts = some sp) :
    (exceptErr (create_shared_subconfigs c) =
      ! ((pySplit sk ',').zip (pySplit sp ',')).all
          (fun kp => entryOk kp.1 kp.2)) ∧
    (∀ l, create_shared_subconfigs c = .ok l →
      l.length = min (pySplit sk ',').length (pySplit sp ',').length) := by
  constructor
  · have hiff := zipParse_err_iff (pySplit sk ',') (pySplit sp ',')
    cases hz : zipParse (pySplit sk ',') (pySplit sp ',') with
    | error e =>
      rw [hz] at hiff
      simp [create_shared_subconfigs, h1, h2, hz, exceptErr] at hiff ⊢
      exact hiff
    | ok ts =>
      rw [hz] at hiff
      simp [create_shared_subconfigs, h1, h2, hz, exceptErr] at hiff ⊢
      exact hiff
  · intro l hl
    simp only [create_shared_subconfigs, h1, h2] at hl
    cases hz : zipParse (pySplit sk ',') (pySplit sp ',') with
    | error e => rw [hz] at hl; exact absurd hl (by simp)
    | ok ts =>
      rw [hz] at hl
      have hts : l = ts.map (fun t => applySub t c) := by simpa using hl.symm
      subst hts
      simpa using zipParse_ok_length (pySplit sk ',') (pySplit sp ',') ts hz

/-- A config whose second key entry lacks the `:` separator. -/
def witConfig : ConfigData :=
  { walletName := "w", walletHotkey := "h", axonPort := 1
  , sharedKeys := some "A:a,Bb", sharedPorts := some "9000,9001" }

/-- Witness for the amended C2, at a config whose second key entry is
malformed: the fan-out raises. -/
theorem fanout_fails_iff_bad_zipped_entry_witness :
    (witConfig.sharedKeys = some "A:a,Bb" ∧
      witConfig.sharedPorts = some "9000,9001") ∧
    ((exceptErr (create_shared_subconfigs witConfig) =
        ! ((pySplit "A:a,Bb" ',').zip (pySplit "9000,9001" ',')).all
            (fun kp => entryOk kp.1 kp.2)) ∧
      (∀ l, create_shared_subconfigs witConfig = .ok l →
        l.length =
          min (pySplit "A:a,Bb" ',').length (pySplit "9000,9001" ',').length)) :=
  ⟨⟨rfl, rfl⟩, fanout_fails_iff_bad_zipped_entry witConfig "A:a,Bb" "9000,9001" rfl rfl⟩

/-! ## Deep-copy independence of the fanned-out configs (heap model) -/

theorem set_snoc (s : Store) (x y : ConfigData) :
    (s ++ [x]).set s.length y = s ++ [y] := by
  induction s with
  | nil => rfl
  | cons a as ih => simp [List.set, ih]

theorem setAt_read_ne (s : Store) (x y : Addr) (f : ConfigData → ConfigData)
    (h : x ≠ y) : readAddr (setAt s x f) y = readAddr s y := by
  rw [setAt, readAddr, readAddr]
  exact List.get?_set_ne _ _ h

theorem fanoutHeap_cons (a0 : Addr) (t : IdentSub) (ts : List IdentSub)
    (s : Store) (c : ConfigData) (h0 : readAddr s a0 = some c) :
    fanoutHeap a0 (t :: ts) s =
      (s.length :: (fanoutHeap a0 ts (s ++ [applySub t c])).1,
        (fanoutHeap a0 ts (s ++ [applySub t c])).2) := by
  have hg : s.get? a0 = some c := h0
  simp only [fanoutHeap, deepcopyAt, hg, Option.getD_some, setAt,
    List.get?_concat_length, set_snoc]
  rfl

theorem fanoutHeap_spec (a0 : Addr) (c : ConfigData) :
    ∀ (ts : List IdentSub) (s : Store), readAddr s a0 = some c →
      (fanoutHeap a0 ts s).1 = List.range' s.length ts.length ∧
      (fanoutHeap a0 ts s).2.length = s.length + ts.length ∧
      (∀ b, b < s.length →
        readAddr (fanoutHeap a0 ts s).2 b = readAddr s b) ∧
      (∀ i (hi : i < ts.length),
        readAddr (fanoutHeap a0 ts s).2 (s.length + i) =
          some (applySub (ts.get ⟨i, hi⟩) c)) := by
  intro ts
  induction ts with
  | nil =>
    intro s h0
    exact ⟨rfl, by simp [fanoutHeap], fun b hb => rfl,
      fun i hi => absurd hi (by simp)⟩
  | cons t ts ih =>
    intro s h0
    have ha0 : a0 < s.length := (List.get?_eq_some.mp h0).1
    have hc := fanoutHeap_cons a0 t ts s c h0
    have hra : readAddr (s ++ [applySub t c]) a0 = some c := by
      rw [readAddr, List.get?_append ha0]
      exact h0
    obtain ⟨ih1, ih2, ih3, ih4⟩ := ih (s ++ [applySub t c]) hra
    have hlen : (s ++ [applySub t c]).length = s.length + 1 := by simp
    refine ⟨?_, ?_, ?_, ?_⟩
    · rw [hc]
      show s.length :: (fanoutHeap a0 ts (s ++ [applySub t c])).1 =
        List.range' s.length (t :: ts).length
      rw [ih1, hlen, List.length_cons, List.range'_succ]
    · rw [hc]
      show (fanoutHeap a0 ts (s ++ [applySub t c])).2.length =
        s.length + (t :: ts).length
      rw [ih2, hlen, List.length_cons]
      omega
    · intro b hb
      rw [hc]
      show readAddr (fanoutHeap a0 ts (s ++ [applySub t c])).2 b = readAddr s b
      rw [ih3 b (by omega)]
      rw [readAddr, readAddr, List.get?_append hb]
    · intro i hi
      rw [hc]
      cases i with
      | zero =>
        show readAddr (fanoutHeap a0 ts (s ++ [applySub t c])).2 (s.length + 0) =
          some (applySub ((t :: ts).get ⟨0, hi⟩) c)
        have h3 := ih3 s.length (by omega)
        have h4 : readAddr (s ++ [applySub t c]) s.length = some (applySub t c) := by
          rw [readAddr, List.get?_concat_length]
        rw [Nat.add_zero, h3, h4]
        rfl
      | succ j =>
        have hj : j < ts.length := by
          simpa using hi
        have h4 := ih4 j hj
        rw [hlen] at h4
        show readAddr (fanoutHeap a0 ts (s ++ [applySub t c])).2 (s.length + (j + 1)) =
          some (applySub ((t :: ts).get ⟨j + 1, hi⟩) c)
        rw [show s.length + (j + 1) = s.length + 1 + j by omega, h4]
        rfl

/-- Claim C8: with a non-null shared-keys list of N well-formed `cold:hot`
entries and a ports list of equal length N, heap-level fan-out succeeds and
produces exactly N configs in input order — the i-th holds the i-th coldkey,
hotkey and port substituted into a copy of the original — allocated at N
pairwise-distinct fresh addresses, all distinct from the original's address,
so mutating any one config (any field update through its address) changes
neither any other config nor the original. -/
theorem fanout_deep_copy_independence (s : Store) (a0 : Addr) (c : ConfigData)
    (sk sp : String) (N : Nat) (ts : List IdentSub)
    (h0 : readAddr s a0 = some c)
    (h1 : c.sharedKeys = some sk) (h2 : c.sharedPorts = some sp)
    (h3 : zipParse (pySplit sk ',') (pySplit sp ',') = .ok ts)
    (h4 : (pySplit sk ',').length = N) (h5 : (pySplit sp ',').length = N) :
    createSharedSubconfigsHeap a0 s =
        .ok (List.range' s.length N, (fanoutHeap a0 ts s).2) ∧
      ts.length = N ∧
      (List.range' s.length N).length = N ∧
      (List.range' s.length N).Nodup ∧
      (∀ a ∈ List.range' s.length N, a ≠ a0) ∧
      (∀ i (hi : i < ts.length),
        readAddr (fanoutHeap a0 ts s).2 (s.length + i) =
          some (applySub (ts.get ⟨i, hi⟩) c)) ∧
      (∀ x y, x ∈ List.range' s.length N → y ∈ List.range' s.length N →
        x ≠ y → ∀ f,
          readAddr (setAt (fanoutHeap a0 ts s).2 x f) y =
            readAddr (fanoutHeap a0 ts s).2 y) ∧
      (∀ x ∈ List.range' s.length N, ∀ f,
        readAddr (setAt (fanoutHeap a0 ts s).2 x f) a0 =
          readAddr (fanoutHeap a0 ts s).2 a0) := by
  have ha0 : a0 < s.length := (List.get?_eq_some.mp h0).1
  have hN : ts.length = N := by
    have := zipParse_ok_length (pySplit sk ',') (pySplit sp ',') ts h3
    rw [h4, h5] at this
    simpa using this
  obtain ⟨s1, s2, s3, s4⟩ := fanoutHeap_spec a0 c ts s h0
  have hmem : ∀ a ∈ List.range' s.length N, s.length ≤ a := by
    intro a ha
    rcases List.mem_range'.mp ha with ⟨i, hi, rfl⟩
    omega
  have g1 : createSharedSubconfigsHeap a0 s =
      .ok (List.range' s.length N, (fanoutHeap a0 ts s).2) := by
    simp only [createSharedSubconfigsHeap, h0, h1, h2, h3]
    rw [show (fanoutHeap a0 ts s) = ((fanoutHeap a0 ts s).1, (fanoutHeap a0 ts s).2)
      from rfl, s1, hN]
  have g5 : ∀ a ∈ List.range' s.length N, a ≠ a0 := by
    intro a ha
    have hle := hmem a ha
    exact (Nat.lt_of_lt_of_le ha0 hle).ne'
  have g7 : ∀ x y, x ∈ List.range' s.length N → y ∈ List.range' s.length N →
      x ≠ y → ∀ f,
        readAddr (setAt (fanoutHeap a0 ts s).2 x f) y =
          readAddr (fanoutHeap a0 ts s).2 y := by
    intro x y hx hy hxy f
    exact setAt_read_ne _ x y f hxy
  have g8 : ∀ x ∈ List.range' s.length N, ∀ f,
      readAddr (setAt (fanoutHeap a0 ts s).2 x f) a0 =
        readAddr (fanoutHeap a0 ts s).2 a0 := by
    intro x hx f
    have hle := hmem x hx
    exact setAt_read_ne _ x a0 f (Nat.lt_of_lt_of_le ha0 hle).ne'
  exact ⟨g1, hN, List.length_range' _ _ _, List.nodup_range' _ _, g5, s4, g7, g8⟩

/-- A one-object store holding a config with two well-formed shared keys and
two ports. -/
def witStore : Store :=
  [{ walletName := "default", walletHotkey := "default", axonPort := 8091
   , sharedKeys := some "A:a,B:b", sharedPorts := some "9000,9001" }]

/-- Witness for C8 at the concrete two-identity input: fan-out yields the
two fresh addresses 1 and 2 holding the substituted copies, independent of
each other and of the original at address 0. -/
theorem fanout_deep_copy_independence_witness :
    (readAddr witStore 0 = some
        { walletName := "default", walletHotkey := "default", axonPort := 8091
        , sharedKeys := some "A:a,B:b", sharedPorts := some "9000,9001" } ∧
      zipParse (pySplit "A:a,B:b" ',') (pySplit "9000,9001" ',') =
        .ok [("A", "a", 9000), ("B", "b", 9001)] ∧
      (pySplit "A:a,B:b" ',').length = 2 ∧
      (pySplit "9000,9001" ',').length = 2) ∧
    (createSharedSubconfigsHeap 0 witStore =
        .ok (List.range' witStore.length 2,
          (fanoutHeap 0 [("A", "a", 9000), ("B", "b", 9001)] witStore).2) ∧
      ([("A", "a", 9000), ("B", "b", 9001)] : List IdentSub).length = 2 ∧
      (List.range' witStore.length 2).length = 2 ∧
      (List.range' witStore.length 2).Nodup ∧
      (∀ a ∈ List.range' witStore.length 2, a ≠ 0) ∧
      (∀ i (hi : i < ([("A", "a", 9000), ("B", "b", 9001)] : List IdentSub).length),
        readAddr (fanoutHeap 0 [("A", "a", 9000), ("B", "b", 9001)] witStore).2
            (witStore.length + i) =
          some (applySub (([("A", "a", 9000), ("B", "b", 9001)] : List IdentSub).get ⟨i, hi⟩)
            { walletName := "default", walletHotkey := "default", axonPort := 8091
            , sharedKeys := some "A:a,B:b", sharedPorts := some "9000,9001" })) ∧
      (∀ x y, x ∈ List.range' witStore.length 2 → y ∈ List.range' witStore.length 2 →
        x ≠ y → ∀ f,
          readAddr (setAt (fanoutHeap 0 [("A", "a", 9000), ("B", "b", 9001)] witStore).2 x f) y =
            readAddr (fanoutHeap 0 [("A", "a", 9000), ("B", "b", 9001)] witStore).2 y) ∧
      (∀ x ∈ List.range' witStore.length 2, ∀ f,
        readAddr (setAt (fanoutHeap 0 [("A", "a", 9000), ("B", "b", 9001)] witStore).2 x f) 0 =
          readAddr (fanoutHeap 0 [("A", "a", 9000), ("B", "b", 9001)] witStore).2 0)) :=
  ⟨⟨rfl, by decide, by decide, by decide⟩,
    fanout_deep_copy_independence witStore 0
      { walletName := "default", walletHotkey := "default", axonPort := 8091
      , sharedKeys := some "A:a,B:b", sharedPorts := some "9000,9001" }
      "A:a,B:b" "9000,9001" 2 [("A", "a", 9000), ("B", "b", 9001)]
      rfl rfl rfl (by decide) (by decide) (by decide)⟩

/-! ## Claims about the training loop -/

/-- Claim C3 (amended): the `try` block of the step loop covers the whole
body including the publish/pull block, so every exception raised inside an
iteration — batch processing *and* `metagraph.emit`/`metagraph.sync` — is
caught and the loop continues; the only fault that escapes `train` is a
failure of the epoch-entry `metagraph.sync` executed before the loop. -/
theorem loop_catches_all_including_publish (k fuel : Nat) (env : EpochEnv)
    (st : TrainState) :
    (trainEpoch k fuel env st).2 = errPart env.entrySyncResult := by
  cases h : env.entrySyncResult with
  | error e => simp [trainEpoch, errPart, h]
  | ok u => simp [trainEpoch, errPart, h]

unseal Rat.mul Rat.add Rat.sub Rat.inv Rat.ofScientific in
/-- Counterexample for C3 as stated: in a concrete run whose second
iteration's `metagraph.emit` raises, no worker fault escapes the loop
(`none`), the loop still completes all 10 local steps, and the failed emit
attempt is visible in the call trace — contradicting the claim that a
publish/pull exception propagates out of the loop. -/
theorem publish_failure_does_not_escape_cex :
    (trainEpoch 2 20 cexEpochEnv st0).2 = none ∧
      (trainEpoch 2 20 cexEpochEnv st0).1.localStep = localEpochs ∧
      Event.emit 2 [0] true ∈ (trainEpoch 2 20 cexEpochEnv st0).1.events := by
  decide

theorem sum_map_div (v : List ℚ) (d : ℚ) :
    (v.map (fun x => x / d)).sum = v.sum / d := by
  induction v with
  | nil => simp
  | cons a as ih => simp [ih, add_div]

theorem l1norm_of_nonneg (v : List ℚ) (h : ∀ x ∈ v, 0 ≤ x) :
    l1norm v = v.sum := by
  unfold l1norm
  induction v with
  | nil => simp
  | cons a as ih =>
    simp only [List.map_cons, List.sum_cons]
    rw [abs_of_nonneg (h a (List.mem_cons_self a as)),
      ih (fun x hx => h x (List.mem_cons_of_mem a hx))]

theorem preSmooth_nonneg : ∀ (row batch : List ℚ),
    (∀ x ∈ row, 0 ≤ x) → (∀ x ∈ batch, 0 ≤ x) →
    ∀ x ∈ preSmooth row batch, 0 ≤ x := by
  intro row
  induction row with
  | nil =>
    intro batch _ _ x hx
    simp [preSmooth] at hx
  | cons a as ih =>
    intro batch h1 h2 x hx
    cases batch with
    | nil => simp [preSmooth] at hx
    | cons b bs =>
      simp only [preSmooth, List.zipWith_cons_cons, List.mem_cons] at hx
      rcases hx with rfl | hx
      · have ha := h1 a (List.mem_cons_self a as)
        have hb := h2 b (List.mem_cons_self b bs)
        nlinarith
      · exact ih bs (fun y hy => h1 y (List.mem_cons_of_mem a hy))
          (fun y hy => h2 y (List.mem_cons_of_mem b hy)) x
          (by simpa [preSmooth] using hx)

/-- Claim C5 (amended): each local step updates the row as
`row := (1 - 0.03) * row + 0.03 * batch_mean` and unconditionally
L1-renormalizes it on that same step (also on non-publish steps), and the
result is non-negative and sums to exactly 1 — provided the inputs are
non-negative and the updated pre-normalization row has L1 mass above the
normalization epsilon `1e-12` (for an all-zero row and contribution the
renormalization divides by the epsilon clamp and the row stays all-zero,
summing to 0). -/
theorem smoothing_update_normalized (row batch : List ℚ)
    (hlen : row.length = batch.length)
    (hrow : ∀ x ∈ row, 0 ≤ x) (hbatch : ∀ x ∈ batch, 0 ≤ x)
    (hmass : eps < l1norm (preSmooth row batch)) :
    (∀ x ∈ smoothUpdate row batch, 0 ≤ x) ∧
      (smoothUpdate row batch).sum = 1 ∧
      (∀ k env st, env.batchResult = .ok batch → st.rowWeights = row →
        (st.globalStep + 1) % k ≠ 0 →
        (stepBody k env st).1.rowWeights = smoothUpdate row batch) := by
  have hpre := preSmooth_nonneg row batch hrow hbatch
  have hnorm : l1norm (preSmooth row batch) = (preSmooth row batch).sum :=
    l1norm_of_nonneg _ hpre
  have heps : (0 : ℚ) < eps := by norm_num [eps]
  have hmass2 : eps < (preSmooth row batch).sum := hnorm ▸ hmass
  have hpos : 0 < (preSmooth row batch).sum := lt_trans heps hmass2
  have hmax : max ((preSmooth row batch).sum) eps
      = (preSmooth row batch).sum := max_eq_left (le_of_lt hmass2)
  refine ⟨?_, ?_, ?_⟩
  · intro x hx
    unfold smoothUpdate normalizeL1 at hx
    simp only [hnorm, hmax, List.mem_map] at hx
    obtain ⟨y, hy, rfl⟩ := hx
    exact div_nonneg (hpre y hy) (le_of_lt hpos)
  · unfold smoothUpdate normalizeL1
    simp only [hnorm, hmax]
    rw [sum_map_div]
    exact div_self (ne_of_gt hpos)
  · intro k env st hb hr hsync
    simp [stepBody, hb, hsync, hr, bumpSteps]

unseal Rat.mul Rat.add Rat.sub Rat.inv Rat.ofScientific in
/-- Counterexample for C5 as stated: with the all-zero row and the all-zero
batch contribution — a legal "sequence of per-step batch weight
contributions" — the updated row is `[0]`, whose sum is 0, not 1 within any
tolerance (here 1e-6). -/
theorem all_zero_update_not_normalized_cex :
    smoothUpdate [0] [0] = [0] ∧
      ¬ (|(smoothUpdate [0] [0]).sum - 1| ≤ 1 / 1000000) := by
  decide

unseal Rat.mul Rat.add Rat.sub Rat.inv Rat.ofScientific in
/-- Witness for the amended C5 at `row = [1, 0]`, `batch = [0, 1]`. -/
theorem smoothing_update_normalized_witness :
    (([(1 : ℚ), 0] : List ℚ).length = ([(0 : ℚ), 1] : List ℚ).length ∧
      (∀ x ∈ [(1 : ℚ), 0], 0 ≤ x) ∧ (∀ x ∈ [(0 : ℚ), 1], 0 ≤ x) ∧
      eps < l1norm (preSmooth [1, 0] [0, 1])) ∧
    ((∀ x ∈ smoothUpdate [1, 0] [0, 1], 0 ≤ x) ∧
      (smoothUpdate [1, 0] [0, 1]).sum = 1 ∧
      (∀ k env st, env.batchResult = .ok [0, 1] → st.rowWeights = [1, 0] →
        (st.globalStep + 1) % k ≠ 0 →
        (stepBody k env st).1.rowWeights = smoothUpdate [1, 0] [0, 1])) :=
  ⟨⟨by decide, by decide, by decide, by decide⟩,
    smoothing_update_normalized [1, 0] [0, 1] (by decide) (by decide)
      (by decide) (by decide)⟩

set_option maxRecDepth 100000 in
unseal Rat.mul Rat.add Rat.sub Rat.inv Rat.ofScientific in
/-- Claim C6: with `sync_interval = 100`, a worker processing 250 local
steps (25 epoch calls of 10 successful steps each, global step starting at
0) performs exactly 2 publish/pull cycles, during the 100th and the 200th
step (1-indexed; the `(global_step + 1) % 100 == 0` guard fires at global
steps 99 and 199), and no third. -/
theorem two_sync_cycles_in_250_steps :
    emittedSteps (runEpochs 25 st0) = [100, 200] := by
  decide

/-- Claim C7: on a publish step where every call succeeds, the worker emits
exactly, in order: `emit(current_row, wait_for_inclusion=True)`, then
`sync`, then `set_priority` with the column `W[:,0]` of the freshly pulled
matrix — and the local row is reset to the freshly pulled `W[0,:]`, the
cached matrix to the pulled one, and both step counters advance. -/
theorem publish_cycle_order (k : Nat) (env : StepEnv) (st : TrainState)
    (batch : List ℚ)
    (hsync : (st.globalStep + 1) % k = 0)
    (hb : env.batchResult = .ok batch)
    (he : env.emitResult = .ok ())
    (hs : env.syncResult = .ok ()) :
    stepBody k env st =
      ({ st with
          rowWeights := row0 env.syncedW,
          matrixW := env.syncedW,
          events := st.events ++
            [Event.emit (st.globalStep + 1) (smoothUpdate st.rowWeights batch) true,
              Event.syncCall, Event.setPriority (col0 env.syncedW)],
          localStep := st.localStep + 1,
          globalStep := st.globalStep + 1 }, none) := by
  simp [stepBody, hb, hsync, he, hs, bumpSteps]

unseal Rat.mul Rat.add Rat.sub Rat.inv Rat.ofScientific in
/-- Witness for C7 at `sync_interval = 1`, the all-succeeding environment
and the initial state. -/
theorem publish_cycle_order_witness :
    ((st0.globalStep + 1) % 1 = 0 ∧
      okStepEnv.batchResult = .ok [0] ∧
      okStepEnv.emitResult = .ok () ∧
      okStepEnv.syncResult = .ok ()) ∧
    stepBody 1 okStepEnv st0 =
      ({ st0 with
          rowWeights := row0 okStepEnv.syncedW,
          matrixW := okStepEnv.syncedW,
          events := st0.events ++
            [Event.emit (st0.globalStep + 1) (smoothUpdate st0.rowWeights [0]) true,
              Event.syncCall, Event.setPriority (col0 okStepEnv.syncedW)],
          localStep := st0.localStep + 1,
          globalStep := st0.globalStep + 1 }, none) :=
  ⟨⟨by decide, by decide, by decide, by decide⟩,
    publish_cycle_order 1 okStepEnv st0 [0] (by decide) (by decide)
      (by decide) (by decide)⟩
